import Mathlib

/-!
Verification of the FitRose calorie-bot repository.

The Python sources (calorie_bot/calculations.py, storage.py, llm.py, bot.py)
are shallowly embedded below.  Python floats are modelled by the rationals
(all constants appearing in the code, such as 6.25 or 1.375, are exact dyadic
values), SQLite tables are modelled by lists of row structures, and fallible
code returns Option.
-/

set_option maxRecDepth 4000

/- ===================== calculations.py ===================== -/

/-- class Sex(str, Enum) in calculations.py. -/
inductive Sex where
  | male
  | female
deriving DecidableEq, Repr

/-- class Goal(str, Enum) in calculations.py. -/
inductive Goal where
  | lose
  | maintain
  | gain
deriving DecidableEq, Repr

/-- class ActivityLevel(str, Enum) in calculations.py. -/
inductive ActivityLevel where
  | sedentary
  | light
  | moderate
  | high
  | very_high
deriving DecidableEq, Repr

/-- ACTIVITY_FACTORS table in calculations.py. -/
def ACTIVITY_FACTORS : ActivityLevel → ℚ
  | .sedentary => 1.2
  | .light => 1.375
  | .moderate => 1.55
  | .high => 1.725
  | .very_high => 1.9

/-- PROTEIN_TARGETS table in calculations.py. -/
def PROTEIN_TARGETS : Goal → ℚ
  | .lose => 2.2
  | .maintain => 2.0
  | .gain => 2.2

/-- FAT_TARGETS table in calculations.py. -/
def FAT_TARGETS : Goal → ℚ
  | .lose => 1.0
  | .maintain => 1.2
  | .gain => 1.3

/-- dataclass UserMetrics in calculations.py. -/
structure UserMetrics where
  bmr : ℚ
  tdee : ℚ
  calorie_target : ℚ
  protein_target_g : ℚ
  fat_target_g : ℚ
  carb_target_g : ℚ
deriving DecidableEq, Repr

/-- calculate_bmr in calculations.py.  The Sex enumeration is closed, so the
final `raise ValueError` branch of the source is unreachable. -/
def calculate_bmr (weight height : ℚ) (age : ℤ) (sex : Sex) : ℚ :=
  match sex with
  | .male => 10 * weight + 6.25 * height - 5 * age + 5
  | .female => 10 * weight + 6.25 * height - 5 * age - 161

/-- calculate_tdee in calculations.py. -/
def calculate_tdee (bmr : ℚ) (activity_level : ActivityLevel) : ℚ :=
  bmr * ACTIVITY_FACTORS activity_level

/-- calculate_calorie_target in calculations.py. -/
def calculate_calorie_target (tdee : ℚ) (goal : Goal) : ℚ :=
  match goal with
  | .lose => tdee * 0.8
  | .maintain => tdee
  | .gain => tdee * 1.2

/-- calculate_macros in calculations.py: returns (protein_g, fat_g, carb_g). -/
def calculate_macros (weight calorie_target : ℚ) (goal : Goal) : ℚ × ℚ × ℚ :=
  let protein_per_kg := PROTEIN_TARGETS goal
  let fat_per_kg := FAT_TARGETS goal
  let protein_g := protein_per_kg * weight
  let fat_g := fat_per_kg * weight
  let calories_from_protein := protein_g * 4
  let calories_from_fat := fat_g * 9
  let carb_calories := max (calorie_target - (calories_from_protein + calories_from_fat)) 0
  let carb_g := carb_calories / 4
  (protein_g, fat_g, carb_g)

/-- build_metrics in calculations.py. -/
def build_metrics (weight height : ℚ) (age : ℤ) (sex : Sex)
    (activity : ActivityLevel) (goal : Goal) : UserMetrics :=
  let bmr := calculate_bmr weight height age sex
  let tdee := calculate_tdee bmr activity
  let calorie_target := calculate_calorie_target tdee goal
  let m := calculate_macros weight calorie_target goal
  { bmr := bmr
    tdee := tdee
    calorie_target := calorie_target
    protein_target_g := m.1
    fat_target_g := m.2.1
    carb_target_g := m.2.2 }

/-- Modelled from the words of the spec (section 4.1): Mifflin-St Jeor.
Male: 10·weight + 6.25·height − 5·age + 5; female: the same with −161
in place of +5.  Written independently of calculate_bmr so the two can be
compared. -/
def mifflinStJeorSpec (weight height : ℚ) (age : ℤ) (sex : Sex) : ℚ :=
  match sex with
  | .male => 10 * weight + 6.25 * height - 5 * (age : ℚ) + 5
  | .female => 10 * weight + 6.25 * height - 5 * (age : ℚ) - 161

/- ===================== storage.py ===================== -/

/-- The storage layer only ever reads the numeric components of the JSON
payload dicts it is handed (.get with the four nutrient keys); a payload is
therefore modelled by an association list from key to rational value. -/
abbrev Payload := List (String × ℚ)

/-- dict.get(key) with no default: None when the key is absent. -/
def pget (p : Payload) (k : String) : Option ℚ :=
  (p.find? (fun kv => kv.1 == k)).map (fun kv => kv.2)

/-- dict.get(key, d): default d when the key is absent. -/
def pgetD (p : Payload) (k : String) (d : ℚ) : ℚ :=
  (pget p k).getD d

/-- Python truthiness of an optional dict: None and the empty dict are
falsy. -/
def ptruthy : Option Payload → Bool
  | none => false
  | some l => !l.isEmpty

/-- One row of the meals table.  The four nutrient columns are nullable
REAL columns, hence Option. -/
structure MealRow where
  id : Nat
  day_log_id : Nat
  meal_type : String
  entry_type : String
  user_input : Option String
  llm_payload : Option Payload
  corrected_payload : Option Payload
  calories : Option ℚ
  protein : Option ℚ
  fat : Option ℚ
  carbs : Option ℚ
deriving DecidableEq, Repr

/-- One row of the day_logs table. -/
structure DayLogRow where
  id : Nat
  telegram_id : Nat
  day : String
  total_calories : ℚ
  total_protein : ℚ
  total_fat : ℚ
  total_carbs : ℚ
  status : String
deriving DecidableEq, Repr

/-- One row of the users table (the User dataclass of storage.py). -/
structure UserRow where
  telegram_id : Nat
  age : ℤ
  sex : Sex
  height : ℚ
  weight : ℚ
  activity : ActivityLevel
  goal : Goal
  metrics : UserMetrics
deriving DecidableEq, Repr

/-- The SQLite database state: the three tables the claims touch, plus the
AUTOINCREMENT counters of day_logs and meals. -/
structure DB where
  users : List UserRow
  day_logs : List DayLogRow
  meals : List MealRow
  next_day_log : Nat
  next_meal : Nat
deriving DecidableEq, Repr

/-- The empty database produced by the CREATE TABLE statements. -/
def DB.empty : DB :=
  { users := [], day_logs := [], meals := [], next_day_log := 1, next_meal := 1 }

/-- Storage.get_user: SELECT * FROM users WHERE telegram_id=?. -/
def get_user (db : DB) (telegram_id : Nat) : Option UserRow :=
  db.users.find? (fun u => u.telegram_id == telegram_id)

/-- Storage.upsert_user: INSERT ... ON CONFLICT(telegram_id) DO UPDATE. -/
def upsert_user (db : DB) (user : UserRow) : DB :=
  if db.users.any (fun u => u.telegram_id == user.telegram_id) then
    { db with users :=
        db.users.map (fun u => if u.telegram_id == user.telegram_id then user else u) }
  else
    { db with users := db.users ++ [user] }

/-- The UPDATE day_logs SET status='active' WHERE id=? row transformer of
Storage.set_active_day. -/
def activateRow (day_log_id : Nat) (s : DayLogRow) : DayLogRow :=
  if s.id == day_log_id then { s with status := "active" } else s

/-- The UPDATE day_logs SET status='closed' WHERE telegram_id=? AND id<>?
row transformer of Storage.set_active_day. -/
def closeOthers (telegram_id day_log_id : Nat) (s : DayLogRow) : DayLogRow :=
  if s.telegram_id == telegram_id && s.id != day_log_id then
    { s with status := "closed" } else s

/-- The fresh row inserted by Storage.set_active_day when no (telegram_id,
day) row exists yet (totals take the schema defaults 0). -/
def freshActiveRow (day_log_id telegram_id : Nat) (day : String) : DayLogRow :=
  { id := day_log_id, telegram_id := telegram_id, day := day
    total_calories := 0, total_protein := 0, total_fat := 0, total_carbs := 0
    status := "active" }

/-- Storage.set_active_day: find-or-create the (telegram_id, day) row, set
its status to active (UPDATE ... WHERE id=?), then close every other row of
that user (UPDATE ... WHERE telegram_id=? AND id<>?). -/
def set_active_day (db : DB) (telegram_id : Nat) (day : String) : Nat × DB :=
  match db.day_logs.find? (fun r => r.telegram_id == telegram_id && r.day == day) with
  | some row =>
      let day_log_id := row.id
      let logs2 := (db.day_logs.map (activateRow day_log_id)).map
        (closeOthers telegram_id day_log_id)
      (day_log_id, { db with day_logs := logs2 })
  | none =>
      let day_log_id := db.next_day_log
      let logs2 := (db.day_logs ++ [freshActiveRow day_log_id telegram_id day]).map
        (closeOthers telegram_id day_log_id)
      (day_log_id, { db with day_logs := logs2, next_day_log := day_log_id + 1 })

/-- Storage.get_active_day: SELECT id, day ... WHERE telegram_id=? AND
status='active' ORDER BY day DESC LIMIT 1.  ISO date strings sort
lexicographically, so ORDER BY day DESC picks the largest day string. -/
def get_active_day (db : DB) (telegram_id : Nat) : Option (Nat × String) :=
  match (db.day_logs.filter (fun r =>
      r.telegram_id == telegram_id && r.status == "active")).foldl
    (fun acc r =>
      match acc with
      | none => some r
      | some b => if b.day < r.day then some r else some b) none with
  | none => none
  | some r => some (r.id, r.day)

/-- Storage.close_day: UPDATE day_logs SET status='closed' WHERE
telegram_id=? AND day=?. -/
def close_day (db : DB) (telegram_id : Nat) (day : String) : DB :=
  { db with day_logs := db.day_logs.map (fun r =>
      if r.telegram_id == telegram_id && r.day == day then
        { r with status := "closed" } else r) }

/-- The committed value of one nutrient column in Storage.add_meal_entry:
corrected_payload.get(k) if corrected_payload else (llm_payload or {}).get(k, 0).
A truthy corrected payload missing the key yields SQL NULL (none). -/
def committedVal (llm corrected : Option Payload) (k : String) : Option ℚ :=
  if ptruthy corrected then pget (corrected.getD []) k
  else some (pgetD (llm.getD []) k 0)

/-- The meals row inserted by Storage.add_meal_entry.  json.dumps(p) if p
else None stores NULL for both None and empty payloads. -/
def mkMealRow (id day_log_id : Nat) (meal_type entry_type : String)
    (user_input : Option String) (llm corrected : Option Payload) : MealRow :=
  { id := id, day_log_id := day_log_id
    meal_type := meal_type, entry_type := entry_type, user_input := user_input
    llm_payload := if ptruthy llm then llm else none
    corrected_payload := if ptruthy corrected then corrected else none
    calories := committedVal llm corrected "calories"
    protein := committedVal llm corrected "protein"
    fat := committedVal llm corrected "fat"
    carbs := committedVal llm corrected "carbs" }

/-- SELECT COALESCE(SUM(col), 0) FROM meals WHERE day_log_id=?: SQL SUM
skips NULLs and COALESCE maps an empty sum to 0. -/
def sqlSum (meals : List MealRow) (day_log_id : Nat) (col : MealRow → Option ℚ) : ℚ :=
  (((meals.filter (fun m => m.day_log_id == day_log_id)).filterMap col).foldl (· + ·) 0)

/-- The UPDATE day_logs SET total_* = (SELECT ...) WHERE id=? row
transformer of Storage.add_meal_entry. -/
def recomputeTotals (day_log_id : Nat) (meals1 : List MealRow) (r : DayLogRow) : DayLogRow :=
  if r.id == day_log_id then
    { r with
      total_calories := sqlSum meals1 day_log_id (fun m => m.calories)
      total_protein := sqlSum meals1 day_log_id (fun m => m.protein)
      total_fat := sqlSum meals1 day_log_id (fun m => m.fat)
      total_carbs := sqlSum meals1 day_log_id (fun m => m.carbs) }
  else r

/-- Storage.add_meal_entry: insert the meal row, then recompute and persist
the owning day_logs row totals (UPDATE ... WHERE id=?) in the same
transaction. -/
def add_meal_entry (db : DB) (day_log_id : Nat) (meal_type entry_type : String)
    (user_input : Option String) (llm corrected : Option Payload) : Nat × DB :=
  let meal_id := db.next_meal
  let row := mkMealRow meal_id day_log_id meal_type entry_type user_input llm corrected
  let meals1 := db.meals ++ [row]
  let logs := db.day_logs.map (recomputeTotals day_log_id meals1)
  (meal_id, { db with meals := meals1, day_logs := logs, next_meal := meal_id + 1 })

/-- Storage.update_meal_corrections: UPDATE meals SET corrected_payload=?,
calories=?, protein=?, fat=?, carbs=? WHERE id=?.  Note the source performs
no UPDATE of day_logs here: the owning day totals are left untouched. -/
def update_meal_corrections (db : DB) (meal_id : Nat) (payload : Payload) : DB :=
  { db with meals := db.meals.map (fun m =>
      if m.id == meal_id then
        { m with
          corrected_payload := some payload
          calories := some (pgetD payload "calories" 0)
          protein := some (pgetD payload "protein" 0)
          fat := some (pgetD payload "fat" 0)
          carbs := some (pgetD payload "carbs" 0) }
      else m) }

/-- The dict returned by Storage.get_day_summary. -/
structure DaySummary where
  day : String
  total_calories : ℚ
  total_protein : ℚ
  total_fat : ℚ
  total_carbs : ℚ
  meals : List MealRow
deriving DecidableEq, Repr

/-- Storage.get_day_summary: None when no day_logs row exists for
(telegram_id, day); otherwise the stored totals plus the meal rows of that
day log (in insertion order, matching ORDER BY created_at). -/
def get_day_summary (db : DB) (telegram_id : Nat) (day : String) : Option DaySummary :=
  match db.day_logs.find? (fun r => r.telegram_id == telegram_id && r.day == day) with
  | none => none
  | some r =>
      some { day := day
             total_calories := r.total_calories
             total_protein := r.total_protein
             total_fat := r.total_fat
             total_carbs := r.total_carbs
             meals := db.meals.filter (fun m => m.day_log_id == r.id) }

/- ===================== llm.py ===================== -/

/-- JSON values as delivered by json.loads on the oracle response. -/
inductive JValue where
  | null
  | bool (b : Bool)
  | num (q : ℚ)
  | str (s : String)
  | arr (xs : List JValue)
  | obj (kvs : List (String × JValue))

mutual

/-- Python repr, the renderer str() falls back to for non-string values.
Scalars are rendered exactly; numbers use the canonical rational rendering
(the claims only exercise string-valued fields, where repr is not used). -/
def pyRepr : JValue → String
  | .null => "None"
  | .bool true => "True"
  | .bool false => "False"
  | .num q => if q.den == 1 then toString q.num else toString q
  | .str s => "\x27" ++ s ++ "\x27"
  | .arr xs => "[" ++ String.intercalate ", " (pyReprList xs) ++ "]"
  | .obj kvs => "\x7b" ++ String.intercalate ", " (pyReprPairs kvs) ++ "\x7d"

def pyReprList : List JValue → List String
  | [] => []
  | x :: xs => pyRepr x :: pyReprList xs

def pyReprPairs : List (String × JValue) → List String
  | [] => []
  | (k, v) :: kvs => ("\x27" ++ k ++ "\x27: " ++ pyRepr v) :: pyReprPairs kvs

end

/-- Python str(): a string maps to itself, everything else to its repr. -/
def pyStr : JValue → String
  | .str s => s
  | v => pyRepr v

/-- Python truthiness of a JSON value. -/
def pyTruthy : JValue → Bool
  | .null => false
  | .bool b => b
  | .num q => q != 0
  | .str s => !s.isEmpty
  | .arr xs => !xs.isEmpty
  | .obj kvs => !kvs.isEmpty

/-- Numeric value of a digit string. -/
def digitsVal (cs : List Char) : ℕ :=
  cs.foldl (fun n c => 10 * n + (c.toNat - 48)) 0

/-- Model of Python str.strip(): drop ASCII whitespace from both ends
(kept structural over the character list so that it evaluates). -/
def pyStrip (s : String) : String :=
  ⟨((s.data.dropWhile Char.isWhitespace).reverse.dropWhile Char.isWhitespace).reverse⟩

/-- Model of Python str.replace for a single-character pattern and
replacement (the only use in the source is replacing "," by "."). -/
def pyReplaceChar (s : String) (pat rep : Char) : String :=
  ⟨s.data.map (fun c => if c == pat then rep else c)⟩

/-- Exponent part of a float literal: optional sign then digits. -/
def parseExpPart (cs : List Char) : Option ℤ :=
  match cs with
  | '+' :: rest =>
      if !rest.isEmpty && rest.all (fun c => c.isDigit) then some (digitsVal rest) else none
  | '-' :: rest =>
      if !rest.isEmpty && rest.all (fun c => c.isDigit) then some (-(digitsVal rest : ℤ)) else none
  | rest =>
      if !rest.isEmpty && rest.all (fun c => c.isDigit) then some (digitsVal rest) else none

/-- Mantissa of a float literal: digits with an optional fractional part;
returns the value and the unconsumed remainder. -/
def parseMantissa (cs : List Char) : Option (ℚ × List Char) :=
  let intPart := cs.takeWhile (fun c => c.isDigit)
  let rest := cs.dropWhile (fun c => c.isDigit)
  match rest with
  | '.' :: rest2 =>
      let fracPart := rest2.takeWhile (fun c => c.isDigit)
      let rest3 := rest2.dropWhile (fun c => c.isDigit)
      if intPart.isEmpty && fracPart.isEmpty then none
      else some ((digitsVal intPart : ℚ) + (digitsVal fracPart : ℚ) / (10 ^ fracPart.length), rest3)
  | _ => if intPart.isEmpty then none else some ((digitsVal intPart : ℚ), rest)

/-- Unsigned float literal: mantissa with an optional e/E exponent. -/
def parseUnsignedFloat (cs : List Char) : Option ℚ :=
  match parseMantissa cs with
  | none => none
  | some (m, rest) =>
      match rest with
      | [] => some m
      | 'e' :: es => (parseExpPart es).map (fun e => m * (10 : ℚ) ^ e)
      | 'E' :: es => (parseExpPart es).map (fun e => m * (10 : ℚ) ^ e)
      | _ => none

/-- Model of Python float(string): strip whitespace, optional sign, decimal
literal with optional fraction and exponent; anything else raises (none).
The special literals inf and nan are not modelled (never produced by JSON). -/
def parsePyFloat (s : String) : Option ℚ :=
  match (pyStrip s).toList with
  | '+' :: rest => parseUnsignedFloat rest
  | '-' :: rest => (parseUnsignedFloat rest).map (fun q => -q)
  | cs => parseUnsignedFloat cs

/-- Model of Python float(x) on a JSON value: numbers pass through, booleans
coerce to 0/1, strings are parsed, and None/lists/dicts raise (none). -/
def pyFloat : JValue → Option ℚ
  | .num q => some q
  | .bool b => some (if b then 1 else 0)
  | .str s => parsePyFloat s
  | _ => none

/-- dict.get(key) on a JSON object: None when the key is absent. -/
def jget (p : List (String × JValue)) (k : String) : Option JValue :=
  (p.find? (fun kv => kv.1 == k)).map (fun kv => kv.2)

/-- The notes normalization of MealAnalysis.from_dict, applied to
payload.get("notes", ""): a dict flattens its description/conclusions
sub-fields, a list joins the stripped string forms of its truthy elements
with newlines, anything else is str()-ed and stripped. -/
def notesOf : JValue → String
  | .obj kvs =>
      let d := pyStrip (pyStr ((jget kvs "description").getD (.str "")))
      let c := pyStrip (pyStr ((jget kvs "conclusions").getD (.str "")))
      String.intercalate "\n" ([d, c].filter (fun part => !part.isEmpty))
  | .arr parts =>
      String.intercalate "\n" ((parts.filter pyTruthy).map (fun part => pyStrip (pyStr part)))
  | v => pyStrip (pyStr v)

/-- The items normalization of MealAnalysis.from_dict, applied to
payload.get("items", []): a dict becomes a one-element list, a list keeps
only its dict elements, anything else becomes the empty list. -/
def itemsOf : JValue → List (List (String × JValue))
  | .obj kvs => [kvs]
  | .arr xs => xs.filterMap (fun x => match x with | .obj kvs => some kvs | _ => none)
  | _ => []

/-- dataclass MealAnalysis in llm.py. -/
structure MealAnalysis where
  calories : ℚ
  protein : ℚ
  fat : ℚ
  carbs : ℚ
  notes : String
  items : List (List (String × JValue))

/-- One numeric field of MealAnalysis.from_dict:
float(payload.get(k, 0) or 0).  none models the float() call raising. -/
def numField (payload : List (String × JValue)) (k : String) : Option ℚ :=
  let v := (jget payload k).getD (.num 0)
  pyFloat (if pyTruthy v then v else .num 0)

/-- MealAnalysis.from_dict in llm.py.  The notes and items normalizations
cannot raise; only the four float() coercions can, modelled by none. -/
def MealAnalysis.from_dict (payload : List (String × JValue)) : Option MealAnalysis :=
  let notes := notesOf ((jget payload "notes").getD (.str ""))
  let items := itemsOf ((jget payload "items").getD (.arr []))
  match numField payload "calories", numField payload "protein",
        numField payload "fat", numField payload "carbs" with
  | some c, some p, some f, some cb =>
      some { calories := c, protein := p, fat := f, carbs := cb
             notes := notes, items := items }
  | _, _, _, _ => none

/- ===================== bot.py ===================== -/

/-- class LogState(Enum) in bot.py. -/
inductive LogState where
  | CHOOSE_DAY
  | CHOOSE_MEAL
  | CHOOSE_ENTRY_TYPE
  | ENTER_TEXT
  | ENTER_PHOTO
  | CONFIRM
  | CORRECTION_TEXT
deriving DecidableEq, Repr

/-- The slice of context.user_data that log_day_correction reads and
writes (photo bytes are modelled as a list of byte values). -/
structure SessionState where
  analysis : Option MealAnalysis
  original_description : String
  photo_bytes : Option (List Nat)
  corrections : List String
  user_input : String

/-- The argument tuple of a refine_meal_analysis call (the Oracle's
refineEstimate operation). -/
structure RefineArgs where
  corrections : String
  previous : MealAnalysis
  original_description : String
  image : Option (List Nat)

/-- The corrections_text built in log_day_correction:
newline-joined "- item.strip()" lines over the truthy, non-blank entries of
the accumulated correction list. -/
def correctionsJoined (l : List String) : String :=
  String.intercalate "\n"
    ((l.filter (fun item => !item.isEmpty && !(pyStrip item).isEmpty)).map
      (fun item => "- " ++ pyStrip item))

/-- The combined user_input written back by log_day_correction:
original description (stripped, if non-blank) and the correction block,
joined by blank lines, falling back to the raw text when both are empty. -/
def combinedUserInput (original ctext text : String) : String :=
  let parts :=
    (if (pyStrip original).isEmpty then [] else [pyStrip original]) ++
    (if ctext.isEmpty then [] else ["Уточнения:\n" ++ ctext])
  let joined := String.intercalate "\n\n" parts
  if joined.isEmpty then text else joined

/-- CalorieBot.log_day_correction in bot.py.  resp is the outcome of the
single oracle call the handler makes (refine_meal_analysis when a previous
analysis exists, analyze_meal_from_text otherwise); none models the call
raising.  The returned Option RefineArgs records the arguments of the
refine_meal_analysis call when that path is taken. -/
def log_day_correction (st : SessionState) (text : String)
    (resp : Option MealAnalysis) : SessionState × LogState × Option RefineArgs :=
  let proposed := st.corrections ++ [text]
  let ctext := correctionsJoined proposed
  match st.analysis with
  | some prev =>
      let args : RefineArgs :=
        { corrections := if ctext.isEmpty then text else ctext
          previous := prev
          original_description := st.original_description
          image := st.photo_bytes }
      match resp with
      | none => (st, .CORRECTION_TEXT, some args)
      | some a =>
          ({ st with
              corrections := proposed
              analysis := some a
              user_input := combinedUserInput st.original_description ctext text },
           .CONFIRM, some args)
  | none =>
      match resp with
      | none => (st, .CORRECTION_TEXT, none)
      | some a =>
          ({ st with
              corrections := proposed
              analysis := some a
              user_input := combinedUserInput st.original_description ctext text },
           .CONFIRM, none)

/-- A sequence of correction rounds, each a correction text together with
the successful oracle response for that round; returns the final session
state, the final conversation state, and the trace of refine_meal_analysis
argument tuples in call order. -/
def runCorrections (st : SessionState) (rounds : List (String × MealAnalysis)) :
    SessionState × LogState × List RefineArgs :=
  rounds.foldl
    (fun acc r =>
      let step := log_day_correction acc.1 r.1 (some r.2)
      (step.1, step.2.1, acc.2.2 ++ step.2.2.toList))
    (st, LogState.CONFIRM, [])

/-- Modelled from the words of the spec (section 4.5): the expected trace of
refineEstimate invocations.  Round i is invoked with the full accumulated
correction list so far (flattened to the bullet text, or the raw text when
the flattening is blank), the previous estimate of that round, the original
description and the cached photo bytes. -/
def expectedRefineTrace (base : List String) (orig : String)
    (img : Option (List Nat)) : MealAnalysis → List (String × MealAnalysis) → List RefineArgs
  | _, [] => []
  | prev, (t, a) :: rest =>
      { corrections :=
          (fun ct => if ct.isEmpty then t else ct) (correctionsJoined (base ++ [t]))
        previous := prev
        original_description := orig
        image := img } :: expectedRefineTrace (base ++ [t]) orig img a rest

/-- Result of a finish-day interaction. -/
inductive FinishResult where
  | notRegistered
  | noActiveDay
  | emptySummary
  | oracleFailed
  | closedDay
deriving DecidableEq, Repr

/-- CalorieBot.finish_day composed with CalorieBot._summarize_day in bot.py.
oracleOk tells whether the request_day_summary oracle call succeeds; the
contents of its reply only feed the rendered message, so they are not
modelled.  _summarize_day returns False (emptySummary) only when
get_day_summary returns None, i.e. when no day_logs row exists; on oracle
failure it returns False without touching the store; only on success does
finish_day call close_day. -/
def finish_day (db : DB) (telegram_id : Nat) (oracleOk : Bool) : DB × FinishResult :=
  match get_user db telegram_id with
  | none => (db, .notRegistered)
  | some _ =>
      match get_active_day db telegram_id with
      | none => (db, .noActiveDay)
      | some info =>
          match get_day_summary db telegram_id info.2 with
          | none => (db, .emptySummary)
          | some _ =>
              if oracleOk then (close_day db telegram_id info.2, .closedDay)
              else (db, .oracleFailed)

/- ---------- Registration flow (bot.py) ---------- -/

/-- class RegistrationState(Enum) in bot.py (DONE stands for
ConversationHandler.END). -/
inductive RegState where
  | AGE
  | SEX
  | HEIGHT
  | WEIGHT
  | ACTIVITY
  | GOAL
  | DONE
deriving DecidableEq, Repr

/-- The context.user_data["registration"] scratch dict. -/
structure RegData where
  age : Option ℤ
  sex : Option Sex
  height : Option ℚ
  weight : Option ℚ
  activity : Option ActivityLevel
deriving DecidableEq, Repr

/-- Scratch dict before registration starts. -/
def RegData.empty : RegData :=
  { age := none, sex := none, height := none, weight := none, activity := none }

/-- Model of Python int(string): strip whitespace, optional sign, digits. -/
def parsePyInt (s : String) : Option ℤ :=
  match (pyStrip s).toList with
  | '+' :: rest =>
      if !rest.isEmpty && rest.all (fun c => c.isDigit) then some (digitsVal rest) else none
  | '-' :: rest =>
      if !rest.isEmpty && rest.all (fun c => c.isDigit) then some (-(digitsVal rest : ℤ)) else none
  | cs =>
      if !cs.isEmpty && cs.all (fun c => c.isDigit) then some (digitsVal cs) else none

/-- Python str.lower() restricted to the alphabets the bot compares
(ASCII plus the Cyrillic block used by the М/Ж keyboard). -/
def pyLowerChar (c : Char) : Char :=
  if c.isUpper then c.toLower
  else if 0x410 ≤ c.toNat && c.toNat ≤ 0x42F then Char.ofNat (c.toNat + 0x20)
  else if c.toNat == 0x401 then Char.ofNat 0x451
  else c

/-- Python str.lower() on a whole string. -/
def pyLower (s : String) : String :=
  ⟨s.data.map pyLowerChar⟩

/-- ACTIVITY_OPTIONS labels in bot.py. -/
def ACTIVITY_OPTIONS : ActivityLevel → String
  | .sedentary => "Минимальная (сидячая работа)"
  | .light => "Легкая (1-3 тренировки в неделю)"
  | .moderate => "Средняя (3-5 тренировок в неделю)"
  | .high => "Высокая (6-7 тренировок в неделю)"
  | .very_high => "Очень высокая (физический труд + спорт)"

/-- GOAL_OPTIONS labels in bot.py. -/
def GOAL_OPTIONS : Goal → String
  | .lose => "Похудение"
  | .maintain => "Поддержание"
  | .gain => "Набор массы"

/-- registration_activity label lookup, in dict insertion order. -/
def activityFromLabel (s : String) : Option ActivityLevel :=
  [ActivityLevel.sedentary, .light, .moderate, .high, .very_high].find?
    (fun a => s == ACTIVITY_OPTIONS a)

/-- registration_goal label lookup, in dict insertion order. -/
def goalFromLabel (s : String) : Option Goal :=
  [Goal.lose, .maintain, .gain].find? (fun g => s == GOAL_OPTIONS g)

/-- CalorieBot.registration_age: int() parse, then 0 < age <= 120; a valid
age starts a fresh registration dict. -/
def registration_age (text : String) (data : RegData) : RegState × RegData :=
  match parsePyInt text with
  | none => (.AGE, data)
  | some age =>
      if 0 < age && age ≤ 120 then
        (.SEX, { age := some age, sex := none, height := none, weight := none, activity := none })
      else (.AGE, data)

/-- CalorieBot.registration_sex: strip + lower, must be м or ж. -/
def registration_sex (text : String) (data : RegData) : RegState × RegData :=
  let v := pyLower (pyStrip text)
  if v == "м" || v == "ж" then
    (.HEIGHT, { data with sex := some (if v == "м" then Sex.male else Sex.female) })
  else (.SEX, data)

/-- CalorieBot.registration_height: float() with comma tolerated, then
50 <= height <= 250. -/
def registration_height (text : String) (data : RegData) : RegState × RegData :=
  match parsePyFloat (pyReplaceChar text (Char.ofNat 44) (Char.ofNat 46)) with
  | none => (.HEIGHT, data)
  | some h =>
      if 50 ≤ h && h ≤ 250 then (.WEIGHT, { data with height := some h })
      else (.HEIGHT, data)

/-- CalorieBot.registration_weight: float() with comma tolerated, then
30 <= weight <= 400. -/
def registration_weight (text : String) (data : RegData) : RegState × RegData :=
  match parsePyFloat (pyReplaceChar text (Char.ofNat 44) (Char.ofNat 46)) with
  | none => (.WEIGHT, data)
  | some w =>
      if 30 ≤ w && w ≤ 400 then (.ACTIVITY, { data with weight := some w })
      else (.WEIGHT, data)

/-- CalorieBot.registration_activity: stripped text must equal one of the
presented labels. -/
def registration_activity (text : String) (data : RegData) : RegState × RegData :=
  match activityFromLabel (pyStrip text) with
  | none => (.ACTIVITY, data)
  | some a => (.GOAL, { data with activity := some a })

/-- CalorieBot.registration_goal: stripped text must equal one of the
presented labels; on success build_metrics and upsert_user run and the
scratch dict is popped.  none models the (unreachable in the linear flow)
KeyError raised if a prior field were missing from the scratch dict. -/
def registration_goal (db : DB) (telegram_id : Nat) (text : String)
    (data : RegData) : Option (RegState × RegData × DB) :=
  match goalFromLabel (pyStrip text) with
  | none => some (.GOAL, data, db)
  | some g =>
      match data.age, data.sex, data.height, data.weight, data.activity with
      | some age, some sex, some h, some w, some act =>
          let user : UserRow :=
            { telegram_id := telegram_id, age := age, sex := sex
              height := h, weight := w, activity := act, goal := g
              metrics := build_metrics w h age sex act g }
          some (.DONE, RegData.empty, upsert_user db user)
      | _, _, _, _, _ => none

/-- One registration event dispatched by state, as wired in
_register_handlers.  Only the GOAL step touches the store. -/
def registrationStep (db : DB) (telegram_id : Nat) (st : RegState)
    (data : RegData) (text : String) : Option (RegState × RegData × DB) :=
  match st with
  | .AGE => (fun r => some (r.1, r.2, db)) (registration_age text data)
  | .SEX => (fun r => some (r.1, r.2, db)) (registration_sex text data)
  | .HEIGHT => (fun r => some (r.1, r.2, db)) (registration_height text data)
  | .WEIGHT => (fun r => some (r.1, r.2, db)) (registration_weight text data)
  | .ACTIVITY => (fun r => some (r.1, r.2, db)) (registration_activity text data)
  | .GOAL => registration_goal db telegram_id text data
  | .DONE => some (.DONE, data, db)

/-- Run a sequence of registration inputs from the initial AwaitingAge
state with an empty scratch dict. -/
def runRegistration (db : DB) (telegram_id : Nat) (inputs : List String) :
    Option (RegState × RegData × DB) :=
  inputs.foldlM
    (fun acc text => registrationStep acc.2.2 telegram_id acc.1 acc.2.1 text)
    (RegState.AGE, RegData.empty, db)

/-- Modelled from the words of the spec (section 4.1): the full derived
metrics bundle, written independently of calculations.py. -/
def specMetrics (weight height : ℚ) (age : ℤ) (sex : Sex)
    (activity : ActivityLevel) (goal : Goal) : UserMetrics :=
  let bmr := mifflinStJeorSpec weight height age sex
  let factor : ℚ :=
    match activity with
    | .sedentary => 1.2
    | .light => 1.375
    | .moderate => 1.55
    | .high => 1.725
    | .very_high => 1.9
  let tdee := bmr * factor
  let calorie_target :=
    match goal with
    | .lose => tdee * 0.8
    | .maintain => tdee
    | .gain => tdee * 1.2
  let protein_g := (match goal with | .lose => (2.2 : ℚ) | .maintain => 2.0 | .gain => 2.2) * weight
  let fat_g := (match goal with | .lose => (1.0 : ℚ) | .maintain => 1.2 | .gain => 1.3) * weight
  let carb_g := max (calorie_target - (protein_g * 4 + fat_g * 9)) 0 / 4
  { bmr := bmr, tdee := tdee, calorie_target := calorie_target
    protein_target_g := protein_g, fat_target_g := fat_g, carb_target_g := carb_g }

/- ---------- derived helpers used by the theorems ---------- -/

/-- One add_meal_entry call (the arguments the bot supplies). -/
structure MealCall where
  meal_type : String
  entry_type : String
  user_input : Option String
  llm : Option Payload
  corrected : Option Payload
deriving DecidableEq, Repr

/-- Fold a sequence of add_meal_entry calls against one day log. -/
def addMeals (db : DB) (day_log_id : Nat) (calls : List MealCall) : DB :=
  calls.foldl
    (fun d c =>
      (add_meal_entry d day_log_id c.meal_type c.entry_type c.user_input c.llm c.corrected).2)
    db

/-- Modelled from the words of the spec (sections 3 and 4.3): the committed
value of a nutrient is the correction payload value when a correction is
present, else the raw estimate value. -/
def committedSpec (c : MealCall) (k : String) : Option ℚ :=
  match c.corrected with
  | some cp => pget cp k
  | none => pget (c.llm.getD []) k

/-- The four nutrient keys of a payload. -/
def nutrientKeys : List String := ["calories", "protein", "fat", "carbs"]

/-- A payload carrying all four nutrient keys (what the bot always sends:
MealAnalysis.to_dict emits all four). -/
def hasNutrientKeys (p : Payload) : Bool :=
  nutrientKeys.all (fun k => (pget p k).isSome)

/-- A well-formed add_meal_entry call: the correction, when given, carries
all four nutrient keys, and otherwise a raw estimate with all four keys is
given. -/
def wfCall (c : MealCall) : Prop :=
  (∀ cp, c.corrected = some cp → hasNutrientKeys cp = true) ∧
  (c.corrected = none → ∃ lp, c.llm = some lp ∧ hasNutrientKeys lp = true)

/-- Number of active day logs of one user. -/
def countActive (db : DB) (telegram_id : Nat) : Nat :=
  (db.day_logs.filter (fun r =>
    r.telegram_id == telegram_id && r.status == "active")).length

/-- Structural well-formedness the schema guarantees: day log ids are
unique and below the AUTOINCREMENT counter. -/
def WFdb (db : DB) : Prop :=
  (db.day_logs.map (fun r => r.id)).Nodup ∧
  ∀ r ∈ db.day_logs, r.id < db.next_day_log

/-- Fold a sequence of set_active_day calls for one user. -/
def setDays (db : DB) (telegram_id : Nat) (days : List String) : DB :=
  days.foldl (fun d day => (set_active_day d telegram_id day).2) db
/-- Boolean guard under which a numeric field of the oracle payload does not
make float() raise: the key is absent, a number, or falsy (None, False, the
empty string/list/object, zero). -/
def okNumFieldB : Option JValue → Bool
  | none => true
  | some (.num _) => true
  | some w => !pyTruthy w

/-- All four numeric fields of a payload are safe in the sense of
okNumFieldB. -/
def okNumPayloadB (p : List (String × JValue)) : Bool :=
  nutrientKeys.all (fun k => okNumFieldB (jget p k))

/-- Modelled from the words of the spec (section 4.2): the normalized value
of a numeric field — the number when one is present, else 0. -/
def numValSpec (p : List (String × JValue)) (k : String) : ℚ :=
  match jget p k with
  | some (.num q) => q
  | _ => 0

/-- The meal rows produced by a sequence of add_meal_entry calls starting
at a given AUTOINCREMENT counter. -/
def mkRows (start day_log_id : Nat) : List MealCall → List MealRow
  | [] => []
  | c :: rest =>
      mkMealRow start day_log_id c.meal_type c.entry_type c.user_input c.llm c.corrected ::
        mkRows (start + 1) day_log_id rest

/- ===================== theorems ===================== -/

/-- C9: for every weight, height, age and sex in the closed two-valued
enumeration, calculate_bmr returns exactly the Mifflin-St Jeor value
(10·weight + 6.25·height − 5·age + 5 for male, and the same with −161 for
female). -/
theorem C9_bmr_is_mifflin (weight height : ℚ) (age : ℤ) (sex : Sex) :
    calculate_bmr weight height age sex = mifflinStJeorSpec weight height age sex := by
  cases sex <;> rfl

/-- C10 counterexample: at the literal inputs of the spec
(weight 70, height 175, age 30, male) calculate_bmr does not return 1680;
the actual value is 1648.75, so the claimed literal case is false. -/
theorem C10_counterexample :
    ¬ (calculate_bmr 70 175 30 Sex.male = 1680 ∧
       calculate_bmr 70 175 30 Sex.female = 1514) := by
  intro h
  have h1 := h.1
  norm_num [calculate_bmr] at h1

/-- C10 amended: calculate_bmr(70, 175, 30, male) = 1648.75 and the same
inputs with female give 1482.75 (the spec quoted 1680 and 1514, which are
the values for height 180, not 175). -/
theorem C10_amended :
    calculate_bmr 70 175 30 Sex.male = 1648.75 ∧
    calculate_bmr 70 175 30 Sex.female = 1482.75 := by
  constructor <;> norm_num [calculate_bmr]

/-- C3 code_bug evaluation: update_meal_corrections replaces the committed
values of the corrected meal (the first meal goes from 100 to 200 kcal) but
performs no recomputation of the owning day log totals, so the day summary
still reports the stale total 150 instead of changing by (new − old) to 250;
the other meal (50 kcal) is untouched. -/
theorem C3_totals_not_recomputed :
    (get_day_summary
        (add_meal_entry
          (add_meal_entry (set_active_day DB.empty 1 "2024-01-01").2
            1 "breakfast" "text" (some "eggs")
            (some [("calories", 100), ("protein", 10), ("fat", 5), ("carbs", 20)]) none).2
          1 "lunch" "text" (some "soup")
          (some [("calories", 50), ("protein", 4), ("fat", 2), ("carbs", 6)]) none).2
        1 "2024-01-01").map (fun s => s.total_calories) = some 150 ∧
    (get_day_summary
        (update_meal_corrections
          (add_meal_entry
            (add_meal_entry (set_active_day DB.empty 1 "2024-01-01").2
              1 "breakfast" "text" (some "eggs")
              (some [("calories", 100), ("protein", 10), ("fat", 5), ("carbs", 20)]) none).2
            1 "lunch" "text" (some "soup")
            (some [("calories", 50), ("protein", 4), ("fat", 2), ("carbs", 6)]) none).2
          1 [("calories", 200), ("protein", 10), ("fat", 5), ("carbs", 20)])
        1 "2024-01-01").map
      (fun s => (s.total_calories, s.meals.map (fun m => m.calories)))
      = some (150, [some 200, some 50]) := by
  constructor <;>
    norm_num [get_day_summary, add_meal_entry, update_meal_corrections, set_active_day,
      DB.empty, mkMealRow, committedVal, ptruthy, pgetD, pget, sqlSum,
      recomputeTotals, activateRow, closeOthers, freshActiveRow,
      List.filterMap_cons, List.foldl, String.reduceEq]

/-- C5 code_bug evaluation: a user finalizes an active day with zero meals
logged.  The claim says emptiness is reported, the Oracle is not consulted
and the day stays active; the code instead consults the Oracle (a failing
Oracle yields oracleFailed, not emptySummary) and, when the Oracle answers,
closes the day. -/
theorem C5_empty_day_closed_anyway :
    let u : UserRow :=
      { telegram_id := 1, age := 30, sex := .male, height := 175, weight := 70
        activity := .sedentary, goal := .lose
        metrics := build_metrics 70 175 30 .male .sedentary .lose }
    let db0 : DB := { DB.empty with users := [u] }
    let db1 := (set_active_day db0 1 "2024-01-01").2
    db1.meals = [] ∧
    (finish_day db1 1 true).2 = FinishResult.closedDay ∧
    ((finish_day db1 1 true).1.day_logs.map (fun r => r.status)) = ["closed"] ∧
    (finish_day db1 1 false).2 = FinishResult.oracleFailed := by
  refine ⟨rfl, ?_, ?_, ?_⟩ <;>
    norm_num [finish_day, get_user, get_active_day, get_day_summary, close_day,
      set_active_day, DB.empty, activateRow, closeOthers, freshActiveRow,
      String.reduceEq]

/-- The ORDER BY day DESC LIMIT 1 fold returns its accumulator or a list
element. -/
lemma pick_mem {l : List DayLogRow} {acc : Option DayLogRow} {r : DayLogRow}
    (h : l.foldl (fun acc r =>
          match acc with
          | none => some r
          | some b => if b.day < r.day then some r else some b) acc = some r) :
    acc = some r ∨ r ∈ l := by
  induction l generalizing acc with
  | nil => exact Or.inl h
  | cons x xs ih =>
      rcases ih h with hacc | hmem
      · cases acc with
        | none =>
            simp only [] at hacc
            exact Or.inr (by injection hacc with h; exact h ▸ List.mem_cons_self x xs)
        | some b =>
            by_cases hlt : b.day < x.day
            · simp only [if_pos hlt] at hacc
              exact Or.inr (by injection hacc with h; exact h ▸ List.mem_cons_self x xs)
            · simp only [if_neg hlt] at hacc
              exact Or.inl hacc
      · exact Or.inr (List.mem_cons_of_mem x hmem)

/-- A successful get_active_day exhibits an active day_logs row of that user
carrying the returned id and day. -/
lemma active_row_exists {db : DB} {tid i : Nat} {d : String}
    (h : get_active_day db tid = some (i, d)) :
    ∃ r ∈ db.day_logs,
      r.telegram_id = tid ∧ r.day = d ∧ r.status = "active" ∧ r.id = i := by
  unfold get_active_day at h
  cases hfold : (db.day_logs.filter (fun r =>
      r.telegram_id == tid && r.status == "active")).foldl
    (fun acc r =>
      match acc with
      | none => some r
      | some b => if b.day < r.day then some r else some b) none with
  | none => rw [hfold] at h; simp at h
  | some r =>
      rw [hfold] at h
      simp only [Option.some.injEq, Prod.mk.injEq] at h
      rcases pick_mem hfold with hc | hmem
      · exact absurd hc (by simp)
      · have hmem2 := List.mem_filter.mp hmem
        refine ⟨r, hmem2.1, ?_, h.2, ?_, h.1⟩
        · have := hmem2.2
          simp only [Bool.and_eq_true, beq_iff_eq] at this
          exact this.1
        · have := hmem2.2
          simp only [Bool.and_eq_true, beq_iff_eq] at this
          exact this.2

/-- C4: for a registered user with an active day, an Oracle failure during
finalization leaves the database unchanged (status still active, totals
untouched, no meal data mutated) and reports oracleFailed; retrying with a
recovered Oracle succeeds, and the only mutation is close_day on that day,
whose rows end up closed. -/
theorem C4_oracle_failure_finalization (db : DB) (tid i : Nat) (d : String)
    (huser : (get_user db tid).isSome = true)
    (hactive : get_active_day db tid = some (i, d)) :
    finish_day db tid false = (db, FinishResult.oracleFailed) ∧
    finish_day db tid true = (close_day db tid d, FinishResult.closedDay) ∧
    (∀ r ∈ (finish_day db tid true).1.day_logs,
      r.telegram_id = tid → r.day = d → r.status = "closed") := by
  obtain ⟨u, hu⟩ := Option.isSome_iff_exists.mp huser
  obtain ⟨r0, hr0mem, h1, h2, h3, h4⟩ := active_row_exists hactive
  have hfind : (db.day_logs.find? (fun r => r.telegram_id == tid && r.day == d)).isSome := by
    rw [List.find?_isSome]
    exact ⟨r0, hr0mem, by simp [h1, h2]⟩
  have hsum : (get_day_summary db tid d).isSome = true := by
    unfold get_day_summary
    cases hf : db.day_logs.find? (fun r => r.telegram_id == tid && r.day == d) with
    | none => rw [hf] at hfind; simp at hfind
    | some r => rfl
  obtain ⟨s, hs⟩ := Option.isSome_iff_exists.mp hsum
  have base : ∀ b : Bool, finish_day db tid b =
      (if b then (close_day db tid d, FinishResult.closedDay)
       else (db, FinishResult.oracleFailed)) := by
    intro b
    unfold finish_day
    rw [hu, hactive]
    dsimp only
    rw [hs]
  refine ⟨by rw [base false]; rfl, by rw [base true]; rfl, ?_⟩
  intro r hr htid hd
  rw [base true] at hr
  simp only [close_day] at hr
  obtain ⟨r', hr', rfl⟩ := List.mem_map.mp hr
  by_cases hc : (r'.telegram_id == tid && r'.day == d) = true
  · simp [hc]
  · rw [if_neg hc]
    rw [if_neg hc] at htid hd
    exact absurd (by simp [htid, hd]) hc

/-- C4 witness: concrete database with one registered user and one active
day; the theorem applies with both hypotheses discharged by rfl. -/
theorem C4_oracle_failure_finalization_witness :
    (fun db : DB =>
      finish_day db 1 false = (db, FinishResult.oracleFailed) ∧
      finish_day db 1 true = (close_day db 1 "2024-01-01", FinishResult.closedDay) ∧
      (∀ r ∈ (finish_day db 1 true).1.day_logs,
        r.telegram_id = 1 → r.day = "2024-01-01" → r.status = "closed"))
    { users := [{ telegram_id := 1, age := 30, sex := .male, height := 175, weight := 70
                  activity := .sedentary, goal := .lose
                  metrics := { bmr := 1, tdee := 1, calorie_target := 1
                               protein_target_g := 1, fat_target_g := 1, carb_target_g := 1 } }]
      day_logs := [{ id := 1, telegram_id := 1, day := "2024-01-01"
                     total_calories := 0, total_protein := 0, total_fat := 0, total_carbs := 0
                     status := "active" }]
      meals := [], next_day_log := 2, next_meal := 1 } :=
  C4_oracle_failure_finalization _ 1 1 "2024-01-01" rfl rfl

/-- Invariants of the correction-round fold, for any starting conversation
state and already-accumulated trace. -/
lemma corrections_go (rounds : List (String × MealAnalysis)) :
    ∀ (st : SessionState) (prev : MealAnalysis) (ls : LogState) (tr : List RefineArgs),
      st.analysis = some prev →
      (fun res : SessionState × LogState × List RefineArgs =>
        res.1.corrections = st.corrections ++ rounds.map Prod.fst ∧
        res.2.2 = tr ++ expectedRefineTrace st.corrections st.original_description
            st.photo_bytes prev rounds ∧
        res.1.analysis = some ((rounds.map Prod.snd).getLastD prev) ∧
        res.2.1 = (if rounds.isEmpty then ls else LogState.CONFIRM) ∧
        res.1.original_description = st.original_description ∧
        res.1.photo_bytes = st.photo_bytes)
      (rounds.foldl
        (fun acc r =>
          let step := log_day_correction acc.1 r.1 (some r.2)
          (step.1, step.2.1, acc.2.2 ++ step.2.2.toList))
        (st, ls, tr)) := by
  induction rounds with
  | nil =>
      intro st prev ls tr h
      simp [expectedRefineTrace, h]
  | cons hd rest ih =>
      intro st prev ls tr h
      obtain ⟨t, a⟩ := hd
      rw [List.foldl_cons]
      have hld : log_day_correction st t (some a) =
          ({ st with
              corrections := st.corrections ++ [t]
              analysis := some a
              user_input := combinedUserInput st.original_description
                (correctionsJoined (st.corrections ++ [t])) t },
            LogState.CONFIRM,
            some { corrections :=
                     if (correctionsJoined (st.corrections ++ [t])).isEmpty then t
                     else correctionsJoined (st.corrections ++ [t])
                   previous := prev
                   original_description := st.original_description
                   image := st.photo_bytes }) := by
        simp only [log_day_correction, h]
      dsimp only
      rw [hld]
      dsimp only
      have hx := ih
        { st with
          corrections := st.corrections ++ [t]
          analysis := some a
          user_input := combinedUserInput st.original_description
            (correctionsJoined (st.corrections ++ [t])) t }
        a LogState.CONFIRM
        (tr ++ [{ corrections :=
                    if (correctionsJoined (st.corrections ++ [t])).isEmpty then t
                    else correctionsJoined (st.corrections ++ [t])
                  previous := prev
                  original_description := st.original_description
                  image := st.photo_bytes }])
        rfl
      dsimp only at hx
      refine ⟨?_, ?_, ?_, ?_, ?_, ?_⟩
      · exact hx.1.trans (by simp)
      · exact hx.2.1.trans (by simp [expectedRefineTrace])
      · exact hx.2.2.1.trans (by
          cases rest with
          | nil => simp
          | cons b l =>
              simp only [List.map_cons, List.getLastD_cons, List.getLastD_eq_getLast?,
                List.getLast?_map, List.getLast?_cons_cons]
              cases hgl : (b.2 :: List.map Prod.snd l).getLast? with
              | none => exact absurd hgl (by simp)
              | some x => simp)
      · exact hx.2.2.2.1.trans (by simp)
      · exact hx.2.2.2.2.1
      · exact hx.2.2.2.2.2

/-- C6: in the correction loop (a previous analysis is stashed in the
session), every successfully processed correction text is appended to the
accumulated correction list (never replacing it); each round re-invokes
refine_meal_analysis with the flattened full accumulated list plus the
original description and the cached photo bytes, the stashed estimate is
replaced by the oracle reply, and the flow returns to the confirmation
step. -/
theorem C6_correction_loop (st : SessionState) (prev : MealAnalysis)
    (rounds : List (String × MealAnalysis)) (h : st.analysis = some prev) :
    (runCorrections st rounds).1.corrections = st.corrections ++ rounds.map Prod.fst ∧
    (runCorrections st rounds).2.2 =
      expectedRefineTrace st.corrections st.original_description st.photo_bytes prev rounds ∧
    (runCorrections st rounds).1.analysis = some ((rounds.map Prod.snd).getLastD prev) ∧
    (runCorrections st rounds).2.1 = LogState.CONFIRM ∧
    (runCorrections st rounds).1.original_description = st.original_description ∧
    (runCorrections st rounds).1.photo_bytes = st.photo_bytes := by
  have := corrections_go rounds st prev LogState.CONFIRM [] h
  unfold runCorrections
  refine ⟨this.1, by rw [this.2.1]; simp, this.2.2.1, ?_, this.2.2.2.2.1, this.2.2.2.2.2⟩
  rw [this.2.2.2.1]
  simp [ite_self]

/-- C6 witness: one correction round on a session holding a previous
analysis of an omelet description. -/
theorem C6_correction_loop_witness :
    (fun (st : SessionState) (prev : MealAnalysis)
         (rounds : List (String × MealAnalysis)) =>
      (runCorrections st rounds).1.corrections = st.corrections ++ rounds.map Prod.fst ∧
      (runCorrections st rounds).2.2 =
        expectedRefineTrace st.corrections st.original_description st.photo_bytes prev rounds ∧
      (runCorrections st rounds).1.analysis = some ((rounds.map Prod.snd).getLastD prev) ∧
      (runCorrections st rounds).2.1 = LogState.CONFIRM ∧
      (runCorrections st rounds).1.original_description = st.original_description ∧
      (runCorrections st rounds).1.photo_bytes = st.photo_bytes)
    { analysis := some ⟨250, 20, 10, 30, "", []⟩, original_description := "омлет"
      photo_bytes := none, corrections := [], user_input := "омлет" }
    ⟨250, 20, 10, 30, "", []⟩
    [("без масла", ⟨200, 20, 5, 30, "", []⟩)] :=
  C6_correction_loop _ _ _ rfl

/-- A safe numeric field coerces to exactly the spec value without
raising. -/
lemma numField_of_ok {p : List (String × JValue)} {k : String}
    (h : okNumFieldB (jget p k) = true) :
    numField p k = some (numValSpec p k) := by
  unfold numField numValSpec
  cases hj : jget p k with
  | none => simp [pyTruthy, pyFloat]
  | some w =>
      rw [hj] at h
      cases w with
      | num q =>
          by_cases hq : q = 0
          · subst hq; simp [pyTruthy, pyFloat]
          · simp [pyTruthy, pyFloat, hq]
      | null => simp [pyTruthy, pyFloat]
      | bool b =>
          have hb : b = false := by simpa [okNumFieldB, pyTruthy] using h
          subst hb
          simp [pyTruthy, pyFloat]
      | str s =>
          have hs : s.isEmpty = true := by simpa [okNumFieldB, pyTruthy] using h
          simp [pyTruthy, pyFloat, hs]
      | arr xs =>
          have hx : xs.isEmpty = true := by simpa [okNumFieldB, pyTruthy] using h
          simp [pyTruthy, pyFloat, hx]
      | obj kvs =>
          have hk : kvs.isEmpty = true := by simpa [okNumFieldB, pyTruthy] using h
          simp [pyTruthy, pyFloat, hk]

/-- C7 counterexample: the claim says numeric fields default to 0 when
non-numeric, but a truthy non-numeric string makes float() raise:
from_dict of a payload with calories "abc" raises (none) instead of
normalizing to 0. -/
theorem C7_counterexample :
    MealAnalysis.from_dict [("calories", JValue.str "abc")] = none := rfl

/-- C7 amended: parsing coerces defensively and does not raise as long as
every numeric field is absent, numeric, or falsy (a truthy non-numeric
value such as the string "abc" raises); under that guard each numeric field
normalizes to its number or 0; notes given as a string, a list of strings,
or a description/conclusions object flatten to a single trimmed
newline-joined string (falsy list entries are dropped); items given as a
single object become a one-element list and non-object entries of an items
list are dropped. -/
theorem C7_defensive_parsing_amended :
    (∀ p, okNumPayloadB p = true →
      MealAnalysis.from_dict p =
        some { calories := numValSpec p "calories"
               protein := numValSpec p "protein"
               fat := numValSpec p "fat"
               carbs := numValSpec p "carbs"
               notes := notesOf ((jget p "notes").getD (.str ""))
               items := itemsOf ((jget p "items").getD (.arr [])) }) ∧
    (∀ s, notesOf (.str s) = pyStrip s) ∧
    (∀ ss : List String, notesOf (.arr (ss.map JValue.str)) =
      String.intercalate "\n" ((ss.filter (fun s => !s.isEmpty)).map (fun s => pyStrip s))) ∧
    (∀ d c, notesOf (.obj [("description", .str d), ("conclusions", .str c)]) =
      String.intercalate "\n" (([pyStrip d, pyStrip c]).filter (fun part => !part.isEmpty))) ∧
    (∀ kvs, itemsOf (.obj kvs) = [kvs]) ∧
    (∀ xs, itemsOf (.arr xs) =
      xs.filterMap (fun x => match x with | .obj kvs => some kvs | _ => none)) := by
  refine ⟨?_, fun s => rfl, ?_, fun d c => rfl, fun kvs => rfl, fun xs => rfl⟩
  · intro p hp
    simp only [okNumPayloadB, nutrientKeys, List.all_cons, List.all_nil,
      Bool.and_eq_true, Bool.and_true] at hp
    obtain ⟨h1, h2, h3, h4⟩ := hp
    unfold MealAnalysis.from_dict
    rw [numField_of_ok h1, numField_of_ok h2, numField_of_ok h3, numField_of_ok h4]
  · intro ss
    have hfil : ∀ ss : List String,
        ((ss.map JValue.str).filter pyTruthy) =
          (ss.filter (fun s => !s.isEmpty)).map JValue.str := by
      intro ss
      induction ss with
      | nil => rfl
      | cons s rest ih =>
          by_cases he : s.isEmpty = true <;>
            simp [pyTruthy, he, ih]
    show String.intercalate "\n"
        (((ss.map JValue.str).filter pyTruthy).map (fun part => pyStrip (pyStr part))) = _
    rw [hfil ss, List.map_map]
    rfl

/-- C7 amended witness: a payload with numeric calories and a padded notes
string parses to the normalized analysis. -/
theorem C7_defensive_parsing_amended_witness :
    MealAnalysis.from_dict [("calories", JValue.num 250), ("notes", JValue.str " beef ")] =
      some { calories := 250, protein := 0, fat := 0, carbs := 0
             notes := "beef", items := [] } :=
  (C7_defensive_parsing_amended.1
    [("calories", JValue.num 250), ("notes", JValue.str " beef ")] rfl).trans rfl

/-- C8: in the registration flow, the invalid inputs "abc" and "150" leave
the flow in AwaitingAge with the scratch data and the store untouched, and
the valid sequence age 30, sex М, height 175, weight 70, followed by any
presented activity and goal labels, ends the flow with exactly one
persisted user profile whose derived metrics agree with the formulas of
spec section 4.1. -/
theorem C8_registration_flow :
    (∀ (db : DB) (tid : Nat) (data : RegData),
      registrationStep db tid .AGE data "abc" = some (.AGE, data, db)) ∧
    (∀ (db : DB) (tid : Nat) (data : RegData),
      registrationStep db tid .AGE data "150" = some (.AGE, data, db)) ∧
    (∀ (act : ActivityLevel) (g : Goal) (tid : Nat),
      runRegistration DB.empty tid
          ["30", "М", "175", "70", ACTIVITY_OPTIONS act, GOAL_OPTIONS g] =
        some (.DONE, RegData.empty,
          { DB.empty with users :=
              [{ telegram_id := tid, age := 30, sex := .male, height := 175, weight := 70
                 activity := act, goal := g
                 metrics := build_metrics 70 175 30 .male act g }] }) ∧
      build_metrics 70 175 30 Sex.male act g = specMetrics 70 175 30 Sex.male act g) := by
  refine ⟨fun db tid data => rfl, fun db tid data => rfl, fun act g tid => ?_⟩
  cases act <;> cases g <;> exact ⟨rfl, by norm_num [build_metrics, specMetrics,
    calculate_bmr, calculate_tdee, calculate_calorie_target, calculate_macros,
    mifflinStJeorSpec, ACTIVITY_FACTORS, PROTEIN_TARGETS, FAT_TARGETS]⟩

/-- With ids unique, a predicate forcing the key of r0 filters to exactly
[r0]. -/
lemma filter_eq_singleton_of_key {l : List DayLogRow} {r0 : DayLogRow}
    (p : DayLogRow → Bool)
    (hmem : r0 ∈ l) (hnd : (l.map (fun r => r.id)).Nodup)
    (hp : p r0 = true)
    (hkey : ∀ s ∈ l, p s = true → s.id = r0.id) :
    l.filter p = [r0] := by
  induction l with
  | nil => cases hmem
  | cons a rest ih =>
      rw [List.map_cons, List.nodup_cons] at hnd
      rcases List.mem_cons.mp hmem with rfl | hmem2
      · rw [List.filter_cons, if_pos hp]
        have hrest : rest.filter p = [] := by
          rw [List.filter_eq_nil_iff]
          intro s hs hps
          exact hnd.1 (hkey s (List.mem_cons_of_mem r0 hs) hps ▸
            List.mem_map_of_mem (fun r => r.id) hs)
        rw [hrest]
      · have hpa : ¬ (p a = true) := by
          intro hpa
          have hida := hkey a (List.mem_cons_self a rest) hpa
          exact hnd.1 (hida ▸ List.mem_map_of_mem (fun r => r.id) hmem2)
        rw [List.filter_cons, if_neg hpa]
        exact ih hmem2 hnd.2
          (fun s hs hps => hkey s (List.mem_cons_of_mem a hs) hps)


/-- The two UPDATE transformers of set_active_day keep id, user and day. -/
lemma closeActivate_keeps (t d : Nat) (s : DayLogRow) :
    (closeOthers t d (activateRow d s)).id = s.id ∧
    (closeOthers t d (activateRow d s)).telegram_id = s.telegram_id ∧
    (closeOthers t d (activateRow d s)).day = s.day := by
  unfold closeOthers activateRow
  by_cases h1 : s.id = d <;> by_cases h2 : s.telegram_id = t <;> simp [h1, h2]

/-- The closing UPDATE transformer keeps id, user and day. -/
lemma closeOthers_keeps (t d : Nat) (s : DayLogRow) :
    (closeOthers t d s).id = s.id ∧
    (closeOthers t d s).telegram_id = s.telegram_id ∧
    (closeOthers t d s).day = s.day := by
  unfold closeOthers
  by_cases h : (s.telegram_id == t && s.id != d) = true <;> simp [h]

/-- Postcondition of one set_active_day call on a well-formed database:
well-formedness is preserved, the caller ends up with exactly one active
day log, the active log carries the selected day, and every pre-existing
row survives with its key fields (id, user, day) intact. -/
lemma set_active_day_one (db : DB) (tid : Nat) (day : String) (h : WFdb db) :
    WFdb (set_active_day db tid day).2 ∧
    countActive (set_active_day db tid day).2 tid = 1 ∧
    (∀ r ∈ (set_active_day db tid day).2.day_logs,
        r.telegram_id = tid → r.status = "active" → r.day = day) ∧
    (∃ r ∈ (set_active_day db tid day).2.day_logs,
        r.telegram_id = tid ∧ r.day = day ∧ r.status = "active") ∧
    (∀ r ∈ db.day_logs, ∃ r2 ∈ (set_active_day db tid day).2.day_logs,
        r2.id = r.id ∧ r2.telegram_id = r.telegram_id ∧ r2.day = r.day) ∧
    (∀ r ∈ db.day_logs, r.telegram_id = tid → r.day ≠ day →
      ∃ r2 ∈ (set_active_day db tid day).2.day_logs,
        r2.id = r.id ∧ r2.telegram_id = r.telegram_id ∧ r2.day = r.day ∧
        r2.status = "closed") := by
  obtain ⟨hnd, hlt⟩ := h
  unfold set_active_day
  cases hf : db.day_logs.find? (fun r => r.telegram_id == tid && r.day == day) with
  | some row =>
      have hrow := List.find?_some hf
      simp only [Bool.and_eq_true, beq_iff_eq] at hrow
      have hrowmem := List.mem_of_find?_eq_some hf
      dsimp only
      refine ⟨⟨?_, ?_⟩, ?_, ?_, ?_, ?_, ?_⟩
      · rw [List.map_map, List.map_map]
        have : db.day_logs.map (((fun r => r.id) ∘ closeOthers tid row.id) ∘ activateRow row.id) =
            db.day_logs.map (fun r => r.id) :=
          List.map_congr_left (fun s _ => (closeActivate_keeps tid row.id s).1)
        rw [this]
        exact hnd
      · intro r hr
        obtain ⟨s1, hs1, rfl⟩ := List.mem_map.mp hr
        obtain ⟨s, hs, rfl⟩ := List.mem_map.mp hs1
        rw [(closeOthers_keeps _ _ _).1, (show (activateRow row.id s).id = s.id by
          unfold activateRow; by_cases h1 : s.id = row.id <;> simp [h1])]
        exact hlt s hs
      · unfold countActive
        dsimp only
        rw [List.filter_map, List.filter_map]
        rw [filter_eq_singleton_of_key _ hrowmem hnd
          (by simp [activateRow, closeOthers, hrow.1]) ?hkeyA]
        · simp
        case hkeyA =>
          intro s _ hps
          by_contra hne
          by_cases h2 : s.telegram_id = tid <;>
            simp [activateRow, closeOthers, hne, h2] at hps
      · intro r hr ht hst
        obtain ⟨s1, hs1, rfl⟩ := List.mem_map.mp hr
        obtain ⟨s, hs, rfl⟩ := List.mem_map.mp hs1
        have heq : s.id = row.id := by
          by_contra hne
          by_cases h2 : s.telegram_id = tid <;>
            simp [activateRow, closeOthers, hne, h2] at ht hst
        have hsr : s = row := List.inj_on_of_nodup_map hnd hs hrowmem (by simpa using heq)
        subst hsr
        rw [(closeActivate_keeps tid s.id s).2.2]
        exact hrow.2
      · refine ⟨closeOthers tid row.id (activateRow row.id row),
          List.mem_map_of_mem _ (List.mem_map_of_mem _ hrowmem), ?_, ?_, ?_⟩
        · rw [(closeActivate_keeps tid row.id row).2.1]; exact hrow.1
        · rw [(closeActivate_keeps tid row.id row).2.2]; exact hrow.2
        · simp [activateRow, closeOthers, hrow.1]
      · intro r hr
        exact ⟨closeOthers tid row.id (activateRow row.id r),
          List.mem_map_of_mem _ (List.mem_map_of_mem _ hr),
          (closeActivate_keeps tid row.id r).1,
          (closeActivate_keeps tid row.id r).2.1,
          (closeActivate_keeps tid row.id r).2.2⟩
      · intro r hr ht hd
        have hidne : r.id ≠ row.id := by
          intro hid
          exact hd ((List.inj_on_of_nodup_map hnd hr hrowmem (by simpa using hid)) ▸ hrow.2)
        refine ⟨closeOthers tid row.id (activateRow row.id r),
          List.mem_map_of_mem _ (List.mem_map_of_mem _ hr),
          (closeActivate_keeps tid row.id r).1,
          (closeActivate_keeps tid row.id r).2.1,
          (closeActivate_keeps tid row.id r).2.2, ?_⟩
        simp [activateRow, closeOthers, hidne, ht]
  | none =>
      dsimp only
      have hnd2 : ((db.day_logs ++ [freshActiveRow db.next_day_log tid day]).map
          (fun r => r.id)).Nodup := by
        rw [List.map_append, List.nodup_append]
        refine ⟨hnd, by simp, ?_⟩
        intro x hx
        obtain ⟨s, hs, rfl⟩ := List.mem_map.mp hx
        simp only [List.map_cons, List.map_nil, List.mem_singleton, freshActiveRow]
        intro hxeq
        exact absurd (hxeq ▸ hlt s hs) (lt_irrefl _)
      have hmemnew : freshActiveRow db.next_day_log tid day ∈
          db.day_logs ++ [freshActiveRow db.next_day_log tid day] := by simp
      refine ⟨⟨?_, ?_⟩, ?_, ?_, ?_, ?_, ?_⟩
      · rw [List.map_map]
        have : (db.day_logs ++ [freshActiveRow db.next_day_log tid day]).map
              ((fun r => r.id) ∘ closeOthers tid db.next_day_log) =
            (db.day_logs ++ [freshActiveRow db.next_day_log tid day]).map (fun r => r.id) :=
          List.map_congr_left (fun s _ => (closeOthers_keeps tid db.next_day_log s).1)
        rw [this]
        exact hnd2
      · intro r hr
        obtain ⟨s, hs, rfl⟩ := List.mem_map.mp hr
        rw [(closeOthers_keeps _ _ _).1]
        rcases List.mem_append.mp hs with hs2 | hs2
        · exact Nat.lt_succ_of_lt (hlt s hs2)
        · simp only [List.mem_singleton] at hs2
          subst hs2
          simp [freshActiveRow]
      · unfold countActive
        dsimp only
        rw [List.filter_map]
        rw [filter_eq_singleton_of_key _ hmemnew hnd2
          (by simp [closeOthers, freshActiveRow]) ?hkeyB]
        · simp
        case hkeyB =>
          intro s hs hps
          by_contra hne
          have hne2 : ¬ s.id = db.next_day_log := by
            simpa [freshActiveRow] using hne
          by_cases h2 : s.telegram_id = tid <;>
            simp [closeOthers, hne2, h2] at hps
      · intro r hr ht hst
        obtain ⟨s, hs, rfl⟩ := List.mem_map.mp hr
        have heq : s.id = db.next_day_log := by
          by_contra hne
          by_cases h2 : s.telegram_id = tid <;>
            simp [closeOthers, hne, h2] at ht hst
        have hsn : s = freshActiveRow db.next_day_log tid day := by
          rcases List.mem_append.mp hs with hs2 | hs2
          · exact absurd (heq ▸ hlt s hs2) (lt_irrefl _)
          · simpa using hs2
        subst hsn
        rw [(closeOthers_keeps _ _ _).2.2]
        rfl
      · refine ⟨closeOthers tid db.next_day_log (freshActiveRow db.next_day_log tid day),
          List.mem_map_of_mem _ hmemnew, ?_, ?_, ?_⟩
        · rw [(closeOthers_keeps _ _ _).2.1]; rfl
        · rw [(closeOthers_keeps _ _ _).2.2]; rfl
        · simp [closeOthers, freshActiveRow]
      · intro r hr
        exact ⟨closeOthers tid db.next_day_log r,
          List.mem_map_of_mem _ (List.mem_append_left _ hr),
          (closeOthers_keeps _ _ _).1, (closeOthers_keeps _ _ _).2.1,
          (closeOthers_keeps _ _ _).2.2⟩
      · intro r hr ht _
        have hidne : r.id ≠ db.next_day_log := Nat.ne_of_lt (hlt r hr)
        refine ⟨closeOthers tid db.next_day_log r,
          List.mem_map_of_mem _ (List.mem_append_left _ hr),
          (closeOthers_keeps _ _ _).1, (closeOthers_keeps _ _ _).2.1,
          (closeOthers_keeps _ _ _).2.2, ?_⟩
        simp [closeOthers, hidne, ht]

/-- Any non-empty sequence of set_active_day calls for one user ends with
exactly one of that user's day logs active. -/
lemma setDays_one_active (tid : Nat) (days : List String) :
    ∀ db : DB, WFdb db → days ≠ [] →
      countActive (setDays db tid days) tid = 1 ∧ WFdb (setDays db tid days) := by
  induction days with
  | nil => intro db _ hne; exact absurd rfl hne
  | cons d rest ih =>
      intro db hwf _
      have h1 := set_active_day_one db tid d hwf
      cases hr : rest with
      | nil =>
          refine ⟨?_, ?_⟩ <;> simp only [setDays, List.foldl_cons, List.foldl_nil]
          · exact h1.2.1
          · exact h1.1
      | cons e rest2 =>
          have := ih (set_active_day db tid d).2 h1.1 (by simp [hr])
          rw [hr] at this
          refine ⟨?_, ?_⟩ <;> simp only [setDays, List.foldl_cons]
          · exact this.1
          · exact this.2

/-- C2: for every user, after any non-empty sequence of set_active_day
calls exactly one of the user's DayLogs is active; in particular after two
calls with different dates the single active DayLog is the one of the
second date, and a row for the first date is present with status closed. -/
theorem C2_single_active_day (db : DB) (tid : Nat) (d1 d2 : String)
    (hwf : WFdb db) (hne : d1 ≠ d2) :
    (∀ days : List String, days ≠ [] → countActive (setDays db tid days) tid = 1) ∧
    countActive (set_active_day (set_active_day db tid d1).2 tid d2).2 tid = 1 ∧
    (∀ r ∈ (set_active_day (set_active_day db tid d1).2 tid d2).2.day_logs,
        r.telegram_id = tid → r.status = "active" → r.day = d2) ∧
    (∃ r ∈ (set_active_day (set_active_day db tid d1).2 tid d2).2.day_logs,
        r.telegram_id = tid ∧ r.day = d1 ∧ r.status = "closed") := by
  have h1 := set_active_day_one db tid d1 hwf
  have h2 := set_active_day_one (set_active_day db tid d1).2 tid d2 h1.1
  refine ⟨fun days hne2 => (setDays_one_active tid days db hwf hne2).1,
    h2.2.1, h2.2.2.1, ?_⟩
  obtain ⟨r, hr, hrt, hrd, _⟩ := h1.2.2.2.1
  obtain ⟨r2, hr2, hid2, ht2, hd2, hs2⟩ :=
    h2.2.2.2.2.2 r hr hrt (by rw [hrd]; exact hne)
  exact ⟨r2, hr2, by rw [ht2, hrt], by rw [hd2, hrd], hs2⟩

/-- C2 witness: the empty database (trivially well-formed) with the two
days of January 1 and 2. -/
theorem C2_single_active_day_witness :
    (∀ days : List String, days ≠ [] → countActive (setDays DB.empty 1 days) 1 = 1) ∧
    countActive (set_active_day (set_active_day DB.empty 1 "2024-01-01").2 1 "2024-01-02").2 1 = 1 ∧
    (∀ r ∈ (set_active_day (set_active_day DB.empty 1 "2024-01-01").2 1 "2024-01-02").2.day_logs,
        r.telegram_id = 1 → r.status = "active" → r.day = "2024-01-02") ∧
    (∃ r ∈ (set_active_day (set_active_day DB.empty 1 "2024-01-01").2 1 "2024-01-02").2.day_logs,
        r.telegram_id = 1 ∧ r.day = "2024-01-01" ∧ r.status = "closed") :=
  C2_single_active_day DB.empty 1 "2024-01-01" "2024-01-02"
    ⟨by simp [DB.empty], by simp [DB.empty]⟩ (by decide)

/-- Projections of one add_meal_entry call. -/
lemma add_meal_entry_proj (db : DB) (dlid : Nat) (mt et : String) (ui : Option String)
    (llm corrected : Option Payload) :
    (add_meal_entry db dlid mt et ui llm corrected).2.meals =
      db.meals ++ [mkMealRow db.next_meal dlid mt et ui llm corrected] ∧
    (add_meal_entry db dlid mt et ui llm corrected).2.next_meal = db.next_meal + 1 ∧
    (add_meal_entry db dlid mt et ui llm corrected).2.next_day_log = db.next_day_log ∧
    (add_meal_entry db dlid mt et ui llm corrected).2.day_logs =
      db.day_logs.map (recomputeTotals dlid
        (db.meals ++ [mkMealRow db.next_meal dlid mt et ui llm corrected])) :=
  ⟨rfl, rfl, rfl, rfl⟩

/-- Shape of the database after a sequence of add_meal_entry calls: the new
meal rows are appended with consecutive ids and nothing else of the tables
changes except the recomputed day totals. -/
lemma addMeals_shape (calls : List MealCall) :
    ∀ db dlid,
      (addMeals db dlid calls).meals = db.meals ++ mkRows db.next_meal dlid calls ∧
      (addMeals db dlid calls).next_meal = db.next_meal + calls.length := by
  induction calls with
  | nil => intro db dlid; simp [addMeals, mkRows]
  | cons c rest ih =>
      intro db dlid
      have hstep := add_meal_entry_proj db dlid c.meal_type c.entry_type c.user_input
        c.llm c.corrected
      have hrec := ih (add_meal_entry db dlid c.meal_type c.entry_type c.user_input
        c.llm c.corrected).2 dlid
      refine ⟨?_, ?_⟩
      · show (addMeals _ dlid rest).meals = _
        rw [hrec.1, hstep.1, hstep.2.1, mkRows]
        simp
      · show (addMeals _ dlid rest).next_meal = _
        rw [hrec.2, hstep.2.1, List.length_cons]
        omega

/-- The day_logs updates of add_meal_entry keep id, user and day, so find?
by (user, day) transports along a sequence of calls, preserving the id of
the found row. -/
lemma addMeals_find (calls : List MealCall) :
    ∀ (db : DB) (dlid tid : Nat) (day : String) (r0 : DayLogRow),
      db.day_logs.find? (fun r => r.telegram_id == tid && r.day == day) = some r0 →
      ∃ r1, (addMeals db dlid calls).day_logs.find?
          (fun r => r.telegram_id == tid && r.day == day) = some r1 ∧ r1.id = r0.id := by
  induction calls with
  | nil => intro db dlid tid day r0 h; exact ⟨r0, h, rfl⟩
  | cons c rest ih =>
      intro db dlid tid day r0 h
      have hstep := (add_meal_entry_proj db dlid c.meal_type c.entry_type c.user_input
        c.llm c.corrected).2.2.2
      have hfind1 : (add_meal_entry db dlid c.meal_type c.entry_type c.user_input
          c.llm c.corrected).2.day_logs.find?
          (fun r => r.telegram_id == tid && r.day == day) =
          some (recomputeTotals dlid (db.meals ++ [mkMealRow db.next_meal dlid
            c.meal_type c.entry_type c.user_input c.llm c.corrected]) r0) := by
        rw [hstep, List.find?_map]
        have hcomp : ((fun r : DayLogRow => r.telegram_id == tid && r.day == day) ∘
            recomputeTotals dlid (db.meals ++ [mkMealRow db.next_meal dlid
              c.meal_type c.entry_type c.user_input c.llm c.corrected])) =
            (fun r : DayLogRow => r.telegram_id == tid && r.day == day) := by
          funext r
          by_cases hid : r.id = dlid <;> simp [recomputeTotals, hid]
        rw [hcomp, h]
        rfl
      obtain ⟨r1, hr1, hr1id⟩ := ih _ dlid tid day _ hfind1
      refine ⟨r1, ?_, ?_⟩
      · show (addMeals _ dlid rest).day_logs.find? _ = some r1
        exact hr1
      · rw [hr1id]
        by_cases hid : r0.id = dlid <;> simp [recomputeTotals, hid]

/-- mkRows distributes over append, advancing the id counter. -/
lemma mkRows_append (d : Nat) (l1 l2 : List MealCall) :
    ∀ n, mkRows n d (l1 ++ l2) = mkRows n d l1 ++ mkRows (n + l1.length) d l2 := by
  induction l1 with
  | nil => intro n; simp [mkRows]
  | cons c rest ih =>
      intro n
      rw [List.cons_append]
      simp only [mkRows, List.length_cons]
      rw [ih (n + 1)]
      rw [show n + 1 + rest.length = n + (rest.length + 1) from by omega]
      simp

/-- All rows produced by mkRows belong to the target day log. -/
lemma mkRows_filter_self (d : Nat) (cs : List MealCall) :
    ∀ n, (mkRows n d cs).filter (fun m => m.day_log_id == d) = mkRows n d cs := by
  induction cs with
  | nil => intro n; rfl
  | cons c rest ih =>
      intro n
      simp only [mkRows, List.filter_cons]
      rw [if_pos (by simp [mkMealRow]), ih (n + 1)]

/-- Mapping a row selector over mkRows equals mapping the corresponding
call selector, whenever they agree on mkMealRow. -/
lemma mkRows_map_gen {β : Type} (d : Nat) (sel : MealRow → β) (f : MealCall → β)
    (hsel : ∀ i c, sel (mkMealRow i d c.meal_type c.entry_type c.user_input
      c.llm c.corrected) = f c) :
    ∀ (n : Nat) (cs : List MealCall), (mkRows n d cs).map sel = cs.map f := by
  intro n cs
  induction cs generalizing n with
  | nil => rfl
  | cons c rest ih => simp only [mkRows, List.map_cons, hsel, ih]

/-- filterMap version of the previous lemma. -/
lemma mkRows_filterMap_gen (d : Nat) (sel : MealRow → Option ℚ) (f : MealCall → Option ℚ)
    (hsel : ∀ i c, sel (mkMealRow i d c.meal_type c.entry_type c.user_input
      c.llm c.corrected) = f c) :
    ∀ (n : Nat) (cs : List MealCall), (mkRows n d cs).filterMap sel = cs.filterMap f := by
  intro n cs
  induction cs generalizing n with
  | nil => rfl
  | cons c rest ih => simp only [mkRows, List.filterMap_cons, hsel, ih]

/-- For a well-formed call the committed value computed by add_meal_entry
is exactly the spec committed value: the correction value when a correction
is present, else the raw estimate value. -/
lemma committedVal_eq_spec {c : MealCall} (hwf : wfCall c) {k : String}
    (hk : k ∈ nutrientKeys) :
    committedVal c.llm c.corrected k = committedSpec c k := by
  unfold committedVal committedSpec
  cases hc : c.corrected with
  | some cp =>
      have hkeys := hwf.1 cp hc
      have hne : cp ≠ [] := by
        intro hnil
        subst hnil
        simp [hasNutrientKeys, nutrientKeys, pget] at hkeys
      have : ptruthy (some cp) = true := by
        simp [ptruthy, List.isEmpty_iff, hne]
      rw [if_pos this]
      rfl
  | none =>
      obtain ⟨lp, hlp, hkeys⟩ := hwf.2 hc
      have hksome : (pget lp k).isSome = true := by
        have := List.all_eq_true.mp hkeys k hk
        simpa using this
      obtain ⟨v, hv⟩ := Option.isSome_iff_exists.mp hksome
      rw [if_neg (by simp [ptruthy])]
      rw [hlp]
      simp only [Option.getD_some, pgetD, hv, Option.getD_some]

/-- C1: starting from a day log with no meals, any non-empty sequence of
add_meal_entry calls (each with a correction payload carrying all four
nutrient keys, or no correction and a raw estimate carrying all four keys)
inserts rows whose committed values are the correction values when a
correction is present and the raw estimate values otherwise, and a
subsequent get_day_summary returns totals equal to the exact sum of the
committed values of all meals added so far. -/
theorem C1_add_meal_roundtrip (db : DB) (tid : Nat) (day : String) (dlid : Nat)
    (r0 : DayLogRow)
    (hfind : db.day_logs.find? (fun r => r.telegram_id == tid && r.day == day) = some r0)
    (hid : r0.id = dlid)
    (hmeals : ∀ m ∈ db.meals, m.day_log_id ≠ dlid)
    (calls : List MealCall) (hwf : ∀ c ∈ calls, wfCall c) (hne : calls ≠ []) :
    ∃ s, get_day_summary (addMeals db dlid calls) tid day = some s ∧
      s.meals.map (fun m => (m.calories, m.protein, m.fat, m.carbs)) =
        calls.map (fun c => (committedSpec c "calories", committedSpec c "protein",
          committedSpec c "fat", committedSpec c "carbs")) ∧
      s.total_calories = (calls.filterMap (fun c => committedSpec c "calories")).sum ∧
      s.total_protein = (calls.filterMap (fun c => committedSpec c "protein")).sum ∧
      s.total_fat = (calls.filterMap (fun c => committedSpec c "fat")).sum ∧
      s.total_carbs = (calls.filterMap (fun c => committedSpec c "carbs")).sum := by
  rcases List.eq_nil_or_concat calls with rfl | ⟨init, c, rfl⟩
  · exact absurd rfl hne
  simp only [List.concat_eq_append] at hwf hne ⊢
  obtain ⟨r1, hr1, hr1id⟩ := addMeals_find init db dlid tid day r0 hfind
  have hid1 : r1.id = dlid := by rw [hr1id, hid]
  have hlast : addMeals db dlid (init ++ [c]) =
      (add_meal_entry (addMeals db dlid init) dlid c.meal_type c.entry_type
        c.user_input c.llm c.corrected).2 := by
    unfold addMeals
    rw [List.foldl_append]
    rfl
  have hproj := add_meal_entry_proj (addMeals db dlid init) dlid c.meal_type
    c.entry_type c.user_input c.llm c.corrected
  -- the full list of meal rows of the day after all calls
  have hallmeals : (addMeals db dlid (init ++ [c])).meals =
      db.meals ++ mkRows db.next_meal dlid (init ++ [c]) :=
    (addMeals_shape (init ++ [c]) db dlid).1
  have hmeals1 : (addMeals db dlid init).meals ++
      [mkMealRow (addMeals db dlid init).next_meal dlid c.meal_type c.entry_type
        c.user_input c.llm c.corrected] =
      db.meals ++ mkRows db.next_meal dlid (init ++ [c]) := by
    rw [← hproj.1, ← hlast]
    exact hallmeals
  -- find? on the final day_logs
  have hfindfin : (addMeals db dlid (init ++ [c])).day_logs.find?
      (fun r => r.telegram_id == tid && r.day == day) =
      some (recomputeTotals dlid
        (db.meals ++ mkRows db.next_meal dlid (init ++ [c])) r1) := by
    rw [hlast, hproj.2.2.2, hmeals1, List.find?_map]
    have hcomp : ((fun r : DayLogRow => r.telegram_id == tid && r.day == day) ∘
        recomputeTotals dlid (db.meals ++ mkRows db.next_meal dlid (init ++ [c]))) =
        (fun r : DayLogRow => r.telegram_id == tid && r.day == day) := by
      funext r
      by_cases hidr : r.id = dlid <;> simp [recomputeTotals, hidr]
    rw [hcomp, hr1]
    rfl
  have hrec : recomputeTotals dlid
      (db.meals ++ mkRows db.next_meal dlid (init ++ [c])) r1 =
      { r1 with
        total_calories := sqlSum (db.meals ++ mkRows db.next_meal dlid (init ++ [c]))
          dlid (fun m => m.calories)
        total_protein := sqlSum (db.meals ++ mkRows db.next_meal dlid (init ++ [c]))
          dlid (fun m => m.protein)
        total_fat := sqlSum (db.meals ++ mkRows db.next_meal dlid (init ++ [c]))
          dlid (fun m => m.fat)
        total_carbs := sqlSum (db.meals ++ mkRows db.next_meal dlid (init ++ [c]))
          dlid (fun m => m.carbs) } := by
    unfold recomputeTotals
    rw [if_pos (by simp [hid1])]
  -- the day-filtered meal rows are exactly the inserted rows
  have hfiltered : (db.meals ++ mkRows db.next_meal dlid (init ++ [c])).filter
      (fun m => m.day_log_id == dlid) = mkRows db.next_meal dlid (init ++ [c]) := by
    rw [List.filter_append, mkRows_filter_self]
    have : db.meals.filter (fun m => m.day_log_id == dlid) = [] := by
      rw [List.filter_eq_nil_iff]
      intro m hm
      simpa using hmeals m hm
    rw [this, List.nil_append]
  -- each column of the inserted rows is the committed value of its call
  have hsum : ∀ (sel : MealRow → Option ℚ) (k : String), k ∈ nutrientKeys →
      (∀ (i : Nat) (c2 : MealCall),
        sel (mkMealRow i dlid c2.meal_type c2.entry_type c2.user_input
          c2.llm c2.corrected) = committedVal c2.llm c2.corrected k) →
      sqlSum (db.meals ++ mkRows db.next_meal dlid (init ++ [c])) dlid sel =
        ((init ++ [c]).filterMap (fun c2 => committedSpec c2 k)).sum := by
    intro sel k hk hsel
    unfold sqlSum
    rw [hfiltered, mkRows_filterMap_gen dlid sel
      (fun c2 => committedVal c2.llm c2.corrected k) hsel]
    rw [List.filterMap_congr (fun c2 hc2 => committedVal_eq_spec (hwf c2 hc2) hk)]
    rw [← List.sum_eq_foldl]
  have hsummary : get_day_summary (addMeals db dlid (init ++ [c])) tid day =
      some { day := day
             total_calories := sqlSum (db.meals ++ mkRows db.next_meal dlid (init ++ [c]))
               dlid (fun m => m.calories)
             total_protein := sqlSum (db.meals ++ mkRows db.next_meal dlid (init ++ [c]))
               dlid (fun m => m.protein)
             total_fat := sqlSum (db.meals ++ mkRows db.next_meal dlid (init ++ [c]))
               dlid (fun m => m.fat)
             total_carbs := sqlSum (db.meals ++ mkRows db.next_meal dlid (init ++ [c]))
               dlid (fun m => m.carbs)
             meals := mkRows db.next_meal dlid (init ++ [c]) } := by
    unfold get_day_summary
    rw [hfindfin, hrec]
    dsimp only
    rw [hid1, hallmeals, hfiltered]
  refine ⟨_, hsummary, ?_, ?_, ?_, ?_, ?_⟩
  · dsimp only
    rw [mkRows_map_gen dlid _
      (fun c2 => (committedVal c2.llm c2.corrected "calories",
        committedVal c2.llm c2.corrected "protein",
        committedVal c2.llm c2.corrected "fat",
        committedVal c2.llm c2.corrected "carbs")) (fun i c2 => rfl)]
    refine List.map_congr_left (fun c2 hc2 => ?_)
    have hw := hwf c2 hc2
    rw [committedVal_eq_spec hw (by simp [nutrientKeys]),
      committedVal_eq_spec hw (by simp [nutrientKeys]),
      committedVal_eq_spec hw (by simp [nutrientKeys]),
      committedVal_eq_spec hw (by simp [nutrientKeys])]
  · exact hsum (fun m => m.calories) "calories" (by simp [nutrientKeys]) (fun i c2 => rfl)
  · exact hsum (fun m => m.protein) "protein" (by simp [nutrientKeys]) (fun i c2 => rfl)
  · exact hsum (fun m => m.fat) "fat" (by simp [nutrientKeys]) (fun i c2 => rfl)
  · exact hsum (fun m => m.carbs) "carbs" (by simp [nutrientKeys]) (fun i c2 => rfl)

/-- C1 witness: one fresh day log and a single text meal of 100 kcal. -/
theorem C1_add_meal_roundtrip_witness :
    (fun (db : DB) (calls : List MealCall) =>
      ∃ s, get_day_summary (addMeals db 1 calls) 1 "2024-01-01" = some s ∧
        s.meals.map (fun m => (m.calories, m.protein, m.fat, m.carbs)) =
          calls.map (fun c => (committedSpec c "calories", committedSpec c "protein",
            committedSpec c "fat", committedSpec c "carbs")) ∧
        s.total_calories = (calls.filterMap (fun c => committedSpec c "calories")).sum ∧
        s.total_protein = (calls.filterMap (fun c => committedSpec c "protein")).sum ∧
        s.total_fat = (calls.filterMap (fun c => committedSpec c "fat")).sum ∧
        s.total_carbs = (calls.filterMap (fun c => committedSpec c "carbs")).sum)
    { users := [], meals := [], next_day_log := 2, next_meal := 1
      day_logs := [{ id := 1, telegram_id := 1, day := "2024-01-01"
                     total_calories := 0, total_protein := 0, total_fat := 0
                     total_carbs := 0, status := "active" }] }
    [{ meal_type := "breakfast", entry_type := "text", user_input := some "eggs"
       llm := some [("calories", 100), ("protein", 10), ("fat", 5), ("carbs", 20)]
       corrected := none }] :=
  C1_add_meal_roundtrip
    { users := [], meals := [], next_day_log := 2, next_meal := 1
      day_logs := [{ id := 1, telegram_id := 1, day := "2024-01-01"
                     total_calories := 0, total_protein := 0, total_fat := 0
                     total_carbs := 0, status := "active" }] }
    1 "2024-01-01" 1
    { id := 1, telegram_id := 1, day := "2024-01-01"
      total_calories := 0, total_protein := 0, total_fat := 0
      total_carbs := 0, status := "active" }
    rfl rfl (by simp)
    [{ meal_type := "breakfast", entry_type := "text", user_input := some "eggs"
       llm := some [("calories", 100), ("protein", 10), ("fat", 5), ("carbs", 20)]
       corrected := none }]
    (by
      intro c hc
      rw [List.mem_singleton] at hc
      subst hc
      constructor
      · intro cp h
        cases h
      · intro h2
        exact ⟨[("calories", 100), ("protein", 10), ("fat", 5), ("carbs", 20)], rfl, rfl⟩)
    (by simp)
